import Mathlib

/-!
# Verification of the workflowbuilder core

A shallow embedding, in Lean 4, of the ABAC policy decision engine
(`app/services/abac_service.py`) and the visual workflow compiler
(`app/services/visual_workflow_service.py`, `app/core/permissions.py`)
of the `workflowbuilder` repository, together with theorems settling the
behavioural claims about those components.

Modelling conventions:
* Python/JSON values are the inductive `Value` (None, bool, number,
  string, list, dict).  Python numbers (ints and IEEE-754 floats alike)
  are modelled as rationals; IEEE infinities/NaN and the exact decimal
  rendering of floats are outside the model (no claim depends on them),
  but the `OverflowError` that `float()` raises on an int at or beyond
  the double range is modelled exactly (see `Value.toNum`), since the
  evaluator's `except` clause does not catch it.
* Python dicts are association lists with first-match lookup and
  replace-on-update insertion, preserving insertion order like Python.
* Code that can raise returns `Except PyErr`; a raised exception that the
  source does not catch surfaces as `.error`.
* Database state is explicit: `Db` (policies, user attributes, resource
  attributes) for the decision engine, `WfDb` (definitions, stages,
  routes, versions) for the workflow service.  SQLAlchemy queries become
  list filters over that state, executed in the source's order; `flush`
  id assignment becomes an explicit id counter.
* Wall-clock reads (`datetime.utcnow`) are an explicit `Clock` input.
* The audit write (`_log_access`) only appends a row and affects no
  claimed output, so `check_access` is modelled up to its return value.
-/

/-- A Python/JSON runtime value as handled by the ABAC evaluator. -/
inductive Value where
  | vnone : Value
  | vbool : Bool → Value
  | vnum : Rat → Value
  | vstr : String → Value
  | vlist : List Value → Value
  | vdict : List (String × Value) → Value
deriving Repr

/-- Deep equality, Python `==` restricted to JSON-shaped values.
(Python's cross-type numeric equalities such as `True == 1` are not
modelled; condition operands and attributes are compared structurally.) -/
def Value.beq : Value → Value → Bool
  | .vnone, .vnone => true
  | .vbool a, .vbool b => a == b
  | .vnum a, .vnum b => a == b
  | .vstr a, .vstr b => a == b
  | .vlist a, .vlist b => beqL a b
  | .vdict a, .vdict b => beqD a b
  | _, _ => false
where
  beqL : List Value → List Value → Bool
    | [], [] => true
    | x :: xs, y :: ys => Value.beq x y && beqL xs ys
    | _, _ => false
  beqD : List (String × Value) → List (String × Value) → Bool
    | [], [] => true
    | (k, x) :: xs, (l, y) :: ys => k == l && Value.beq x y && beqD xs ys
    | _, _ => false

/-- Python truthiness (`bool(v)`) for JSON-shaped values. -/
def Value.truthy : Value → Bool
  | .vnone => false
  | .vbool b => b
  | .vnum q => q != 0
  | .vstr s => s != ""
  | .vlist l => !l.isEmpty
  | .vdict d => !d.isEmpty

/-- Rendering of a number, standing in for Python's `str` on ints/floats:
integral values print as integers, other rationals as fractions. -/
def pyNumRepr (q : Rat) : String :=
  if q.den == 1 then toString q.num else toString q.num ++ "/" ++ toString q.den

/-- Python `str(v)` for JSON-shaped values (string forms of containers are
simplified renderings; no claim depends on them). -/
def Value.toPyStr : Value → String
  | .vnone => "None"
  | .vbool b => if b then "True" else "False"
  | .vnum q => pyNumRepr q
  | .vstr s => s
  | .vlist l => "[" ++ String.intercalate ", " (goL l) ++ "]"
  | .vdict d => "\x7b" ++ String.intercalate ", " (goD d) ++ "\x7d"
where
  goL : List Value → List String
    | [] => []
    | x :: xs => Value.toPyStr x :: goL xs
  goD : List (String × Value) → List String
    | [] => []
    | (k, v) :: xs => ("\x27" ++ k ++ "\x27: " ++ Value.toPyStr v) :: goD xs

/-- Value of the decimal digit list `ds` read most-significant-first. -/
def digitsVal (ds : List Char) : Nat :=
  ds.foldl (fun acc c => acc * 10 + (c.toNat - '0'.toNat)) 0

/-- Parse an optionally signed decimal with optional fractional part and
optional exponent, the common core of Python `float(str)`.  Surrounding
whitespace is stripped by the caller.  (`inf`/`nan` and underscore
separators are not modelled.) -/
def parseSignedDec (cs : List Char) : Option Rat :=
  let (sign, cs) := match cs with
    | '-' :: rest => ((-1 : Int), rest)
    | '+' :: rest => ((1 : Int), rest)
    | rest => ((1 : Int), rest)
  let intPart := cs.takeWhile Char.isDigit
  let cs := cs.dropWhile Char.isDigit
  let (fracPart, cs) := match cs with
    | '.' :: rest => (rest.takeWhile Char.isDigit, rest.dropWhile Char.isDigit)
    | rest => ([], rest)
  if intPart.isEmpty && fracPart.isEmpty then Option.none
  else
    let mant : Rat := (sign * Int.ofNat (digitsVal (intPart ++ fracPart)) : Int) /
      ((10 : Rat) ^ fracPart.length)
    match cs with
    | [] => some mant
    | e :: rest =>
      if e = 'e' ∨ e = 'E' then
        let (esign, rest) := match rest with
          | '-' :: r => (false, r)
          | '+' :: r => (true, r)
          | r => (true, r)
        let eDigits := rest.takeWhile Char.isDigit
        let rest := rest.dropWhile Char.isDigit
        if eDigits.isEmpty ∨ ¬ rest.isEmpty then Option.none
        else if esign then some (mant * (10 : Rat) ^ digitsVal eDigits)
        else some (mant / (10 : Rat) ^ digitsVal eDigits)
      else Option.none

/-- Python `float(s)` on a string: strip whitespace, then parse. -/
def parsePyFloat (s : String) : Option Rat :=
  parseSignedDec s.trim.toList

/-- Exceptions the embedded code can raise.  `_apply_operator`'s
`except (ValueError, TypeError, AttributeError)` clause catches the
first three; `OverflowError` it does not. -/
inductive PyErr where
  | attributeError : PyErr
  | valueError : PyErr
  | typeError : PyErr
  | overflowError : PyErr
deriving DecidableEq, Repr

/-- The int-to-double overflow threshold of CPython's `float()`:
conversion rounds to nearest (ties to even mantissa), so every integer
of magnitude at or above the midpoint `2^1024 - 2^970` between the
largest finite double and `2^1024` rounds to `2^1024` and raises
`OverflowError`; every smaller integer converts to a finite double. -/
def floatOverflowBound : Nat := 2 ^ 1024 - 2 ^ 970

/-- Python `float(v)` numeric coercion: finite floats and in-range
integers pass through, booleans become 0/1, numeric strings parse and
non-numeric strings raise `ValueError`; `None`, lists and dicts raise
`TypeError`; an integral value of magnitude at or above
`floatOverflowBound` — necessarily a Python int, since no finite double
is that large — raises `OverflowError`.  (`float(str)` never raises
`OverflowError`: an out-of-range numeric string becomes an IEEE
infinity, which is outside this model, as are `inf`/`nan` literals.) -/
def Value.toNum : Value → Except PyErr Rat
  | .vnum q =>
    if q.den == 1 && decide (floatOverflowBound ≤ q.num.natAbs) then .error .overflowError
    else .ok q
  | .vbool b => .ok (if b then 1 else 0)
  | .vstr s =>
    match parsePyFloat s with
    | some q => .ok q
    | Option.none => .error .valueError
  | .vnone => .error .typeError
  | .vlist _ => .error .typeError
  | .vdict _ => .error .typeError

/-- Attribute bag: a Python dict keyed by strings. -/
abbrev Bag := List (String × Value)

/-- Python `dict.get(k)`: `None` when the key is absent. -/
def bagGet? (b : Bag) (k : String) : Option Value :=
  (b.find? (fun p => p.fst == k)).map (·.snd)

/-- `dict.get(k)` collapsing an absent key to `None`, as the source does. -/
def bagGet (b : Bag) (k : String) : Value :=
  (bagGet? b k).getD .vnone

/-- `k in dict`. -/
def bagHas (b : Bag) (k : String) : Bool :=
  (b.find? (fun p => p.fst == k)).isSome

/-- `dict[k] = v`: replace in place or append, preserving insertion order. -/
def bagSet (b : Bag) (k : String) (v : Value) : Bag :=
  if bagHas b k then b.map (fun p => if p.fst == k then (k, v) else p)
  else b ++ [(k, v)]

/-- `dict.update(kvs)`. -/
def bagUpdate (b : Bag) (kvs : Bag) : Bag :=
  kvs.foldl (fun acc p => bagSet acc p.fst p.snd) b

/-! ## A JSON reader, standing in for `json.loads`

Used by `parse_attribute_value` for dynamic resource attributes of type
`json`.  Grammar per RFC 8259 (with `\uXXXX` escapes decoded to the
corresponding code point; surrogate pairing is not modelled). -/

/-- Skip JSON insignificant whitespace. -/
def jskipWs : List Char → List Char
  | c :: cs => if c = ' ' ∨ c = '\t' ∨ c = '\n' ∨ c = '\r' then jskipWs cs else c :: cs
  | [] => []

/-- Hex digit value. -/
def hexVal (c : Char) : Option Nat :=
  if '0' ≤ c ∧ c ≤ '9' then some (c.toNat - '0'.toNat)
  else if 'a' ≤ c ∧ c ≤ 'f' then some (c.toNat - 'a'.toNat + 10)
  else if 'A' ≤ c ∧ c ≤ 'F' then some (c.toNat - 'A'.toNat + 10)
  else Option.none

/-- Parse the body of a JSON string (the opening quote already consumed). -/
def jstring : List Char → List Char → Option (String × List Char)
  | '"' :: rest, acc => some (String.mk acc.reverse, rest)
  | '\\' :: e :: rest, acc =>
    (match e with
     | '"' => jstring rest ('"' :: acc)
     | '\\' => jstring rest ('\\' :: acc)
     | '/' => jstring rest ('/' :: acc)
     | 'n' => jstring rest ('\n' :: acc)
     | 't' => jstring rest ('\t' :: acc)
     | 'r' => jstring rest ('\r' :: acc)
     | 'b' => jstring rest ('\x08' :: acc)
     | 'f' => jstring rest ('\x0c' :: acc)
     | 'u' =>
       match rest with
       | a :: b :: c :: d :: rest2 =>
         match hexVal a, hexVal b, hexVal c, hexVal d with
         | some x, some y, some z, some w =>
             jstring rest2 (Char.ofNat (((x * 16 + y) * 16 + z) * 16 + w) :: acc)
         | _, _, _, _ => Option.none
       | _ => Option.none
     | _ => Option.none)
  | c :: rest, acc => jstring rest (c :: acc)
  | [], _ => Option.none

/-- Parse a JSON number (strict JSON grammar: no leading `+`, a digit is
required before any decimal point). -/
def jnumber (cs : List Char) : Option (Rat × List Char) :=
  let (sign, cs1) := match cs with
    | '-' :: rest => ((-1 : Int), rest)
    | rest => ((1 : Int), rest)
  let intPart := cs1.takeWhile Char.isDigit
  let cs2 := cs1.dropWhile Char.isDigit
  if intPart.isEmpty then Option.none
  else
    let (fracPart, cs3) := match cs2 with
      | '.' :: rest => (rest.takeWhile Char.isDigit, rest.dropWhile Char.isDigit)
      | rest => (([] : List Char), rest)
    if cs2 ≠ cs3 ∧ fracPart.isEmpty then Option.none
    else
      let mant : Rat := (sign * Int.ofNat (digitsVal (intPart ++ fracPart)) : Int) /
        ((10 : Rat) ^ fracPart.length)
      match cs3 with
      | e :: rest =>
        if e = 'e' ∨ e = 'E' then
          let (esign, rest1) := match rest with
            | '-' :: r => (false, r)
            | '+' :: r => (true, r)
            | r => (true, r)
          let eDigits := rest1.takeWhile Char.isDigit
          let rest2 := rest1.dropWhile Char.isDigit
          if eDigits.isEmpty then Option.none
          else if esign then some (mant * (10 : Rat) ^ digitsVal eDigits, rest2)
          else some (mant / (10 : Rat) ^ digitsVal eDigits, rest2)
        else some (mant, cs3)
      | [] => some (mant, [])

/-- Parse a comma-separated list of values already inside `[`, up to `]`. -/
def jitems (p : List Char → Option (Value × List Char)) :
    Nat → List Char → Option (List Value × List Char)
  | 0, _ => Option.none
  | Nat.succ fuel, cs => do
      let (v, rest) ← p cs
      match jskipWs rest with
      | ',' :: rest2 =>
          let (vs, rest3) ← jitems p fuel rest2
          some (v :: vs, rest3)
      | ']' :: rest2 => some (v :: [], rest2)
      | _ => Option.none

/-- Parse a comma-separated list of `"key": value` pairs inside `{`. -/
def jfields (p : List Char → Option (Value × List Char)) :
    Nat → List Char → Option (List (String × Value) × List Char)
  | 0, _ => Option.none
  | Nat.succ fuel, cs => do
      match jskipWs cs with
      | '"' :: rest =>
        let (k, rest1) ← jstring rest []
        match jskipWs rest1 with
        | ':' :: rest2 =>
          let (v, rest3) ← p rest2
          match jskipWs rest3 with
          | ',' :: rest4 =>
              let (kvs, rest5) ← jfields p fuel rest4
              some ((k, v) :: kvs, rest5)
          | '\x7d' :: rest4 => some ((k, v) :: [], rest4)
          | _ => Option.none
        | _ => Option.none
      | _ => Option.none

/-- Parse one JSON value, fuelled by input length. -/
def jparse : Nat → List Char → Option (Value × List Char)
  | 0, _ => Option.none
  | Nat.succ fuel, cs =>
    match jskipWs cs with
    | 'n' :: 'u' :: 'l' :: 'l' :: rest => some (.vnone, rest)
    | 't' :: 'r' :: 'u' :: 'e' :: rest => some (.vbool true, rest)
    | 'f' :: 'a' :: 'l' :: 's' :: 'e' :: rest => some (.vbool false, rest)
    | '"' :: rest => (jstring rest []).map (fun p => (Value.vstr p.fst, p.snd))
    | '[' :: rest =>
      (match jskipWs rest with
       | ']' :: rest2 => some (Value.vlist [], rest2)
       | _ => (jitems (fun cs2 => jparse fuel cs2) fuel rest).map
           (fun p => (Value.vlist p.fst, p.snd)))
    | '\x7b' :: rest =>
      (match jskipWs rest with
       | '\x7d' :: rest2 => some (Value.vdict [], rest2)
       | _ => (jfields (fun cs2 => jparse fuel cs2) fuel rest).map
           (fun p => (Value.vdict p.fst, p.snd)))
    | rest => (jnumber rest).map (fun p => (Value.vnum p.fst, p.snd))

/-- `json.loads(s)`: the whole input must be one JSON value plus
whitespace. -/
def jsonLoads (s : String) : Option Value :=
  let cs := s.toList
  match jparse (cs.length + 1) cs with
  | some (v, rest) => if (jskipWs rest).isEmpty then some v else Option.none
  | Option.none => Option.none

/-! ## ABAC data model (`app/models/abac.py`, `app/models/user.py`) -/

/-- `PolicyEffect` enum. -/
inductive PolicyEffect where
  | allow : PolicyEffect
  | deny : PolicyEffect
deriving DecidableEq, Repr

/-- `.value` of the string-valued enum member. -/
def PolicyEffect.value : PolicyEffect → String
  | .allow => "allow"
  | .deny => "deny"

/-- A condition document inside a policy's `conditions` JSON: a dict from
which the evaluator reads the keys `attribute`, `operator`, `value`.
`Option.none` models key absence (`dict.get` default applies). -/
structure Condition where
  attribute? : Option Value
  operator? : Option Value
  value? : Option Value
deriving Repr

/-- A policy's `conditions` JSON object: the three recognised group keys
(each an optional list of conditions) plus a flag recording whether the
dict carries any further, unrecognised keys (which makes it truthy
without making any group apply). -/
structure CondDoc where
  allConds : Option (List Condition)
  anyConds : Option (List Condition)
  noneConds : Option (List Condition)
  extraKeys : Bool
deriving Repr

/-- Python falsiness of the conditions dict (`not policy.conditions`):
the empty dict. -/
def CondDoc.isFalsy (d : CondDoc) : Bool :=
  d.allConds.isNone && d.anyConds.isNone && d.noneConds.isNone && !d.extraKeys

/-- `ABACPolicy` row.  `department_ids`, `division_ids` and
`role_requirements` are JSON lists whose SQL `NULL` and `[]` are both
Python-falsy wherever the service tests them, so both are modelled as the
empty list. -/
structure Policy where
  id : Int
  name : String
  effect : PolicyEffect
  priority : Int
  action : String
  resource_type : String
  conditions : Option CondDoc
  department_ids : List Int
  division_ids : List Int
  role_requirements : List String
  is_active : Bool
deriving Repr

/-- `UserAttribute` row (the subject profile). -/
structure UserAttrRow where
  user_id : Int
  department_id : Option Int
  division_id : Option Int
  team_id : Option Int
  job_title : Option String
  job_level : Option Int
  approval_limit_amount : Option Int
  can_approve_own_department : Bool
  can_approve_all_departments : Bool
  custom_attributes : Bag
  office_location : Option String
  country_code : Option String
deriving Repr

/-- `ResourceAttribute` row. -/
structure ResourceAttrRow where
  resource_type : String
  resource_id : Int
  attribute_name : String
  attribute_value : String
  attribute_type : String
deriving Repr

/-- `User` row; `roles` is the list of role names of the many-to-many
relationship. -/
structure User where
  id : Int
  email : String
  username : String
  full_name : String
  role : String
  is_active : Bool
  is_superuser : Bool
  roles : List String
  department_id : Option Int
  division_id : Option Int
deriving Repr

/-- The database state the decision engine reads. -/
structure Db where
  policies : List Policy
  user_attributes : List UserAttrRow
  resource_attributes : List ResourceAttrRow
deriving Repr

/-- The `datetime.utcnow()` reading used by
`_get_environment_attributes`, supplied as an explicit input. -/
structure Clock where
  current_time : String
  current_date : String
  current_hour : Int
  current_day_of_week : String
  current_month : Int
  current_year : Int
deriving Repr

def optIntV : Option Int → Value
  | some n => .vnum (n : Rat)
  | Option.none => .vnone

def optStrV : Option String → Value
  | some s => .vstr s
  | Option.none => .vnone

/-! ## `ABACService` attribute gathering -/

/-- `ABACService._parse_attribute_value`. -/
def parse_attribute_value (value : String) (value_type : String) : Value :=
  if value_type == "number" then
    match parsePyFloat value with
    | some q => .vnum q
    | Option.none => .vstr value
  else if value_type == "boolean" then
    .vbool (["true", "1", "yes"].contains value.toLower)
  else if value_type == "json" then
    match jsonLoads value with
    | some v => v
    | Option.none => .vstr value
  else .vstr value

/-- `ABACService._get_user_attributes`. -/
def get_user_attributes (db : Db) (user : User) : Bag :=
  let user_attr := db.user_attributes.find? (fun a => a.user_id == user.id)
  let attrs : Bag :=
    [("id", .vnum (user.id : Rat)), ("email", .vstr user.email),
     ("username", .vstr user.username), ("role", .vstr user.role),
     ("is_active", .vbool user.is_active), ("is_superuser", .vbool user.is_superuser)]
  let attrs :=
    match user_attr with
    | some a =>
      let attrs := bagUpdate attrs
        [("department_id", optIntV a.department_id),
         ("division_id", optIntV a.division_id),
         ("team_id", optIntV a.team_id),
         ("job_title", optStrV a.job_title),
         ("job_level", optIntV a.job_level),
         ("approval_limit_amount", optIntV a.approval_limit_amount),
         ("can_approve_own_department", .vbool a.can_approve_own_department),
         ("can_approve_all_departments", .vbool a.can_approve_all_departments),
         ("office_location", optStrV a.office_location),
         ("country_code", optStrV a.country_code)]
      if !a.custom_attributes.isEmpty then bagUpdate attrs a.custom_attributes else attrs
    | Option.none => attrs
  bagSet attrs "roles" (.vlist (user.roles.map Value.vstr))

/-- The attribute names `_get_resource_attributes` copies off a supplied
resource object. -/
def commonResourceAttrNames : List String :=
  ["status", "amount", "total_amount", "created_by", "department_id",
   "division_id", "created_at", "priority", "category", "assigned_to"]

/-- `ABACService._get_resource_attributes`.  A live resource object is a
bag of its attributes (`hasattr` is key membership). -/
def get_resource_attributes (db : Db) (resource_type : String)
    (resource_id : Option Int) (resource_obj : Option Bag) : Bag :=
  let attrs : Bag := [("type", .vstr resource_type), ("id", optIntV resource_id)]
  let attrs :=
    match resource_obj with
    | some obj =>
      commonResourceAttrNames.foldl
        (fun acc n =>
          match bagGet? obj n with
          | some v => bagSet acc n v
          | Option.none => acc) attrs
    | Option.none => attrs
  match resource_id with
  | some rid =>
    if rid ≠ 0 then
      (db.resource_attributes.filter
        (fun r => r.resource_type == resource_type && r.resource_id == rid)).foldl
        (fun acc r =>
          bagSet acc r.attribute_name (parse_attribute_value r.attribute_value r.attribute_type))
        attrs
    else attrs
  | Option.none => attrs

/-- `ABACService._get_environment_attributes`; the request context is a
dict read with `.get`. -/
def get_environment_attributes (clock : Clock) (context : Option Bag) : Bag :=
  let attrs : Bag :=
    [("current_time", .vstr clock.current_time),
     ("current_date", .vstr clock.current_date),
     ("current_hour", .vnum (clock.current_hour : Rat)),
     ("current_day_of_week", .vstr clock.current_day_of_week),
     ("current_month", .vnum (clock.current_month : Rat)),
     ("current_year", .vnum (clock.current_year : Rat))]
  match context with
  | some ctx =>
    bagUpdate attrs
      [("ip_address", bagGet ctx "ip_address"),
       ("user_agent", bagGet ctx "user_agent"),
       ("endpoint", bagGet ctx "endpoint")]
  | Option.none => attrs

/-! ## `ABACService` condition evaluation -/

/-- Nested-segment navigation of `_get_attribute_value`: each further
path segment is a dict lookup (a non-dict value has no such attribute,
`getattr(obj, part, None)`), returning `None` as soon as a segment is
missing. -/
def navigateAttr : Value → List String → Value
  | obj, [] => obj
  | obj, part :: rest =>
    let next :=
      match obj with
      | .vdict d => bagGet d part
      | _ => .vnone
    match next with
    | .vnone => .vnone
    | v => navigateAttr v rest

/-- `ABACService._get_attribute_value` on a string path: split on `.`,
pick the bag named by the first segment, then navigate. -/
def lookup_attribute_path (path : String) (user_attrs resource_attrs env_attrs : Bag) : Value :=
  match path.splitOn "." with
  | [] => .vnone
  | root :: rest =>
    if root == "user" then navigateAttr (.vdict user_attrs) rest
    else if root == "resource" then navigateAttr (.vdict resource_attrs) rest
    else if root == "environment" then navigateAttr (.vdict env_attrs) rest
    else .vnone

/-- `ABACService._get_attribute_value` as called by the evaluator: the
path argument is whatever the condition dict held; `path.split(".")` on a
non-string (in particular the `None` of a missing `attribute` key)
raises `AttributeError`, which nothing catches. -/
def get_attribute_value (path : Value) (user_attrs resource_attrs env_attrs : Bag) :
    Except PyErr Value :=
  match path with
  | .vstr s => .ok (lookup_attribute_path s user_attrs resource_attrs env_attrs)
  | _ => .error .attributeError

/-- Scan for the lazily matched group of `re.match(r"\{\{(.+?)\}\}", s)`
after the opening braces: the shortest non-empty prefix followed by two
closing braces, none of whose characters is a newline. -/
def scanRefBody : List Char → List Char → Option String
  | c :: cs, acc =>
    if c = '\x7d' ∧ cs.head? = some '\x7d' ∧ ¬ acc.isEmpty then
      some (String.mk acc.reverse)
    else if c = '\n' then Option.none
    else scanRefBody cs (c :: acc)
  | [], _ => Option.none

/-- `ABACService._resolve_reference`. -/
def resolve_reference (reference : String) (user_attrs resource_attrs env_attrs : Bag) : Value :=
  match reference.toList with
  | '\x7b' :: '\x7b' :: rest =>
    (match scanRefBody rest [] with
     | some path => lookup_attribute_path path.trim user_attrs resource_attrs env_attrs
     | Option.none => .vstr reference)
  | _ => .vstr reference

/-- Python `actual in expected` for a list `expected`. -/
def listContainsV (l : List Value) (v : Value) : Bool :=
  l.any (fun x => Value.beq x v)

/-- Substring test on char lists. -/
def listHasSub (needle : List Char) : List Char → Bool
  | [] => needle.isEmpty
  | c :: cs => List.isPrefixOf needle (c :: cs) || listHasSub needle cs

/-- Python `needle in hay` on strings. -/
def strContainsSub (hay needle : String) : Bool :=
  listHasSub needle.toList hay.toList

/-- The `try` body of `ABACService._apply_operator` for a string
operator: raw semantics, any exception raised by a `float(...)` call
propagating.  Coercions run in the source's evaluation order: the left
operand before the right, and for `between` the chained comparison
`float(expected[0]) <= float(actual) <= float(expected[1])` evaluates
its upper bound only when the lower comparison holds. -/
def applyOperatorBody (op : String) (actual expected : Value) : Except PyErr Bool :=
  if op == "eq" then .ok (Value.beq actual expected)
  else if op == "ne" then .ok (!(Value.beq actual expected))
  else if op == "gt" then do
    let a ← actual.toNum
    let b ← expected.toNum
    .ok (decide (b < a))
  else if op == "gte" then do
    let a ← actual.toNum
    let b ← expected.toNum
    .ok (decide (b ≤ a))
  else if op == "lt" then do
    let a ← actual.toNum
    let b ← expected.toNum
    .ok (decide (a < b))
  else if op == "lte" then do
    let a ← actual.toNum
    let b ← expected.toNum
    .ok (decide (a ≤ b))
  else if op == "in" then
    .ok (match expected with
         | .vlist l => listContainsV l actual
         | _ => false)
  else if op == "not_in" then
    .ok (match expected with
         | .vlist l => !(listContainsV l actual)
         | _ => true)
  else if op == "contains" then .ok (strContainsSub actual.toPyStr expected.toPyStr)
  else if op == "starts_with" then .ok (actual.toPyStr.startsWith expected.toPyStr)
  else if op == "ends_with" then .ok (actual.toPyStr.endsWith expected.toPyStr)
  else if op == "between" then
    match expected with
    | .vlist (lo :: hi :: []) => do
      let l ← lo.toNum
      let a ← actual.toNum
      if decide (l ≤ a) then do
        let h ← hi.toNum
        .ok (decide (a ≤ h))
      else .ok false
    | _ => .ok false
  else if op == "is_null" then
    .ok (match actual with
         | .vnone => true
         | _ => false)
  else if op == "is_not_null" then
    .ok (match actual with
         | .vnone => false
         | _ => true)
  else .ok false

/-- The `except (ValueError, TypeError, AttributeError)` clause of
`_apply_operator`: which exception classes it catches.  `OverflowError`
(from `float()` on an out-of-range int) is not among them. -/
def caughtByApplyOperator : PyErr → Bool
  | .valueError => true
  | .typeError => true
  | .attributeError => true
  | .overflowError => false

/-- `_apply_operator` for a string operator: run the body under the
`except` clause — a caught exception becomes `False`, anything else
propagates. -/
def apply_operator_str (op : String) (actual expected : Value) : Except PyErr Bool :=
  match applyOperatorBody op actual expected with
  | .ok b => .ok b
  | .error e => if caughtByApplyOperator e then .ok false else .error e

/-- `ABACService._apply_operator`.  The operator is compared with `==`
against string literals, so a non-string operator value matches none of
them and falls through to `False` without touching an operand. -/
def apply_operator (op : Value) (actual expected : Value) : Except PyErr Bool :=
  match op with
  | .vstr s => apply_operator_str s actual expected
  | _ => .ok false

/-- `ABACService._evaluate_condition`. -/
def evaluate_condition (c : Condition) (user_attrs resource_attrs env_attrs : Bag) :
    Except PyErr Bool := do
  let attribute_path := c.attribute?.getD .vnone
  let operator := c.operator?.getD (.vstr "eq")
  let expected0 := c.value?.getD .vnone
  let actual_value ← get_attribute_value attribute_path user_attrs resource_attrs env_attrs
  let expected_value :=
    match expected0 with
    | .vstr s =>
      if s.startsWith "\x7b\x7b" then resolve_reference s user_attrs resource_attrs env_attrs
      else .vstr s
    | v => v
  apply_operator operator actual_value expected_value

/-- Python `all(...)` over lazily evaluated condition checks. -/
def eval_all (user_attrs resource_attrs env_attrs : Bag) : List Condition → Except PyErr Bool
  | [] => .ok true
  | c :: cs => do
      let b ← evaluate_condition c user_attrs resource_attrs env_attrs
      if b then eval_all user_attrs resource_attrs env_attrs cs else .ok false

/-- Python `any(...)` over lazily evaluated condition checks. -/
def eval_any (user_attrs resource_attrs env_attrs : Bag) : List Condition → Except PyErr Bool
  | [] => .ok false
  | c :: cs => do
      let b ← evaluate_condition c user_attrs resource_attrs env_attrs
      if b then .ok true else eval_any user_attrs resource_attrs env_attrs cs

/-- `ABACService._evaluate_policy`. -/
def evaluate_policy (policy : Policy) (user_attrs resource_attrs env_attrs : Bag) :
    Except PyErr Bool :=
  match policy.conditions with
  | Option.none => .ok true
  | some d =>
    if d.isFalsy then .ok true
    else
      match d.allConds with
      | some cs => eval_all user_attrs resource_attrs env_attrs cs
      | Option.none =>
        match d.anyConds with
        | some cs => eval_any user_attrs resource_attrs env_attrs cs
        | Option.none =>
          match d.noneConds with
          | some cs => do
              let b ← eval_any user_attrs resource_attrs env_attrs cs
              .ok (!b)
          | Option.none => .ok false

/-! ## `ABACService` policy matching and the decision loop -/

/-- The subject's effective role list:
`[r.name for r in user.roles] or [user.role]`. -/
def effective_roles (user : User) : List String :=
  if user.roles.isEmpty then [user.role] else user.roles

/-- Python `x in ids` where `x` may be `None` (never equal to an int). -/
def optIntIn (x : Option Int) (ids : List Int) : Bool :=
  match x with
  | some v => ids.contains v
  | Option.none => false

/-- One department/division scope test of `_get_applicable_policies`: the
policy is kept unless the id list is truthy AND the subject has a
`UserAttribute` row AND the row's id is not in the list. -/
def scope_keeps (ids : List Int) (user_attr : Option UserAttrRow)
    (pick : UserAttrRow → Option Int) : Bool :=
  match user_attr with
  | some a => ids.isEmpty || optIntIn (pick a) ids
  | Option.none => true

/-- `ABACService._get_applicable_policies`: indexed equality on activity,
action and resource type, then role-requirement and scope filtering. -/
def get_applicable_policies (db : Db) (action resource_type : String) (user : User) :
    List Policy :=
  let query := db.policies.filter
    (fun p => p.is_active && p.action == action && p.resource_type == resource_type)
  let user_roles := effective_roles user
  let user_attr := db.user_attributes.find? (fun a => a.user_id == user.id)
  query.filter
    (fun policy =>
      (policy.role_requirements.isEmpty ||
        user_roles.any (fun role => policy.role_requirements.contains role)) &&
      scope_keeps policy.department_ids user_attr (fun a => a.department_id) &&
      scope_keeps policy.division_ids user_attr (fun a => a.division_id))

/-- Stable insertion keeping the list ordered by priority descending; an
incoming element goes after every element of priority ≥ its own. -/
def insertByPriorityDesc (p : Policy) : List Policy → List Policy
  | [] => [p]
  | q :: qs => if q.priority < p.priority then p :: q :: qs else q :: insertByPriorityDesc p qs

/-- `sorted(policies, key=lambda p: p.priority, reverse=True)` — Python's
stable descending sort. -/
def sort_by_priority_desc (l : List Policy) : List Policy :=
  l.foldl (fun acc p => insertByPriorityDesc p acc) []

/-- The mutable locals of the `check_access` evaluation loop. -/
structure DecisionState where
  decision : String
  reason : String
  applied_policy : Option Policy
  evaluated_policy_ids : List Int
deriving Repr

/-- The `for policy in sorted(policies, ...)` loop of `check_access`:
record the id, evaluate; on a match adopt the policy's effect and stop at
a DENY, keep scanning after an ALLOW. -/
def evaluate_loop (user_attrs resource_attrs env_attrs : Bag) :
    List Policy → DecisionState → Except PyErr DecisionState
  | [], st => .ok st
  | policy :: rest, st => do
      let st1 := { st with evaluated_policy_ids := st.evaluated_policy_ids ++ [policy.id] }
      let matched ← evaluate_policy policy user_attrs resource_attrs env_attrs
      if matched then
        let st2 := { st1 with
          decision := policy.effect.value,
          reason := "Policy \x27" ++ policy.name ++ "\x27 matched",
          applied_policy := some policy }
        if policy.effect = PolicyEffect.deny then .ok st2
        else evaluate_loop user_attrs resource_attrs env_attrs rest st2
      else evaluate_loop user_attrs resource_attrs env_attrs rest st1

/-- `ABACService.check_access` up to its returned triple
`(allowed, reason, applied_policy)`.  The audit row written by
`_log_access` copies inputs and loop state and influences nothing
returned. -/
def check_access (db : Db) (clock : Clock) (user : User) (action resource_type : String)
    (resource_id : Option Int) (resource_obj : Option Bag) (context : Option Bag) :
    Except PyErr (Bool × String × Option Policy) := do
  let user_attrs := get_user_attributes db user
  let resource_attrs := get_resource_attributes db resource_type resource_id resource_obj
  let env_attrs := get_environment_attributes clock context
  let policies := get_applicable_policies db action resource_type user
  let st ← evaluate_loop user_attrs resource_attrs env_attrs
    (sort_by_priority_desc policies)
    { decision := "deny", reason := "No matching policy found",
      applied_policy := Option.none, evaluated_policy_ids := [] }
  .ok (st.decision == "allow", st.reason, st.applied_policy)

/-! ## Workflow data model (`app/models/workflow.py`) -/

inductive WorkflowStatus where
  | draft | active | pending | approved | rejected | completed | archived
deriving DecidableEq, Repr

inductive NodeType where
  | start | approval | condition | parallel | endNode | notification | action
deriving DecidableEq, Repr

inductive ApprovalType where
  | sequential | parallel_all | parallel_any | parallel_majority
deriving DecidableEq, Repr

/-- `NodeType(s) if s in NodeType.__members__ else NodeType.approval`
(member names coincide with member values for this enum; the `end`
member is spelled `endNode` here because `end` is reserved in Lean). -/
def nodeTypeOf (s : String) : NodeType :=
  if s == "start" then .start
  else if s == "approval" then .approval
  else if s == "condition" then .condition
  else if s == "parallel" then .parallel
  else if s == "end" then .endNode
  else if s == "notification" then .notification
  else if s == "action" then .action
  else .approval

/-- The node `type` entry is an arbitrary JSON value; a non-string is
never a member name, so it also falls back to `approval`. -/
def nodeTypeFromValue (v : Value) : NodeType :=
  match v with
  | .vstr s => nodeTypeOf s
  | _ => .approval

/-- `ApprovalType(v)`: enum lookup by value; any value outside the four
members raises `ValueError`, which `_sync_stages_from_graph` does not
catch. -/
def approvalTypeOf : Value → Except PyErr ApprovalType
  | .vstr "sequential" => .ok .sequential
  | .vstr "parallel_all" => .ok .parallel_all
  | .vstr "parallel_any" => .ok .parallel_any
  | .vstr "parallel_majority" => .ok .parallel_majority
  | _ => .error .valueError

/-- A React Flow node of the graph document: `id` is required (the
compiler subscripts it), the rest is read with `.get`. -/
structure Node where
  id : String
  type? : Option Value
  data : Bag
  position : Bag
deriving Repr

/-- A React Flow edge: `source`/`target` are required, `data` is read
with `.get`. -/
structure Edge where
  source : String
  target : String
  data : Bag
deriving Repr

/-- The graph document; `Option.none` on `nodes?`/`edges?` models a
missing top-level key. -/
structure Graph where
  nodes? : Option (List Node)
  edges? : Option (List Edge)
  name? : Option String
  description? : Option String
  model_name? : Option String
deriving Repr

/-- `WorkflowDefinition` row.  The three JSON role lists are modelled as
lists with `[]` for SQL `NULL` (both are Python-falsy where tested).
Timestamps are opaque integers. -/
structure Workflow where
  id : Int
  name : String
  description : Option String
  model_name : String
  workflow_graph : Option Graph
  version : Int
  status : WorkflowStatus
  is_template : Bool
  created_by : Int
  department_id : Option Int
  division_id : Option Int
  can_view_roles : List String
  can_edit_roles : List String
  can_use_roles : List String
  published_at : Option Int
  updated_at : Option Int
deriving Repr

/-- `WorkflowStage` row; the columns populated from `node.data` keep the
raw JSON value the compiler stored (`None` for an absent key). -/
structure Stage where
  id : Int
  workflow_id : Int
  node_id : String
  node_type : NodeType
  name : Value
  order_index : Int
  required_role : Value
  required_roles : Value
  specific_users : Value
  approval_type : ApprovalType
  required_approvals_count : Value
  condition_field : Value
  condition_operator : Value
  condition_value : Value
  sla_hours : Value
  escalation_role : Value
  escalation_user_id : Value
  auto_escalate : Value
  notification_template : Value
  custom_action : Value
  position_x : Value
  position_y : Value
  next_stage_id : Option Int
deriving Repr

/-- `ConditionalRoute` row. -/
structure Route where
  from_stage_id : Int
  to_stage_id : Int
  condition_label : Value
  condition_field : Value
  operator : Value
  condition_value : Value
  priority : Value
deriving Repr

/-- `WorkflowVersion` row. -/
structure WVersion where
  workflow_id : Int
  version_number : Int
  workflow_graph : Option Graph
  change_description : Option String
  created_by : Int
deriving Repr

/-- Workflow-side database state; the two counters model autoincrement
id assignment at `flush`. -/
structure WfDb where
  workflows : List Workflow
  stages : List Stage
  routes : List Route
  versions : List WVersion
  next_workflow_id : Int
  next_stage_id : Int
deriving Repr

/-- `HTTPException`s raised by the workflow service, by status code:
404, 403, 400. -/
inductive HErr where
  | notFound (detail : String)
  | forbidden (detail : String)
  | badRequest (detail : String)
deriving DecidableEq, Repr

/-- Errors out of `save_workflow_graph`: an `HTTPException` or an
uncaught Python exception from stage compilation. -/
inductive SaveErr where
  | http (e : HErr)
  | py (e : PyErr)
deriving DecidableEq, Repr

/-- `dict.get(k, d)`. -/
def bagGetD (b : Bag) (k : String) (d : Value) : Value :=
  (bagGet? b k).getD d

/-- Python truthiness of a nullable integer (`None` and `0` falsy). -/
def optIntTruthy : Option Int → Bool
  | some n => n != 0
  | Option.none => false

def smGet? (m : List (String × Int)) (k : String) : Option Int :=
  (m.find? (fun p => p.fst == k)).map (·.snd)

def smInsert (m : List (String × Int)) (k : String) (v : Int) : List (String × Int) :=
  if (m.find? (fun p => p.fst == k)).isSome then
    m.map (fun p => if p.fst == k then (k, v) else p)
  else m ++ [(k, v)]

/-! ## `VisualWorkflowService` (`app/services/visual_workflow_service.py`) -/

/-- `n.get('type') == 'start'`: the node `type` value may be any JSON
value; only the string `"start"` compares equal. -/
def nodeIsStart (n : Node) : Bool :=
  match n.type? with
  | some (.vstr s) => s == "start"
  | _ => false

/-- `VisualWorkflowService._validate_graph`. -/
def validate_graph (graph_data : Graph) : Except HErr Unit :=
  match graph_data.nodes?, graph_data.edges? with
  | some nodes, some _ =>
    if nodes.isEmpty then
      .error (.badRequest "Workflow must have at least one node")
    else if nodes.any nodeIsStart then
      .ok ()
    else
      .error (.badRequest "Workflow must have a start node")
  | _, _ => .error (.badRequest "Invalid graph: must contain \x27nodes\x27 and \x27edges\x27")

/-- `VisualWorkflowService._can_edit`. -/
def can_edit (user : User) (workflow : Workflow) : Bool :=
  if user.role == "admin" then true
  else if workflow.created_by == user.id then true
  else
    let user_roles := effective_roles user
    if !workflow.can_edit_roles.isEmpty then
      user_roles.any (fun role => workflow.can_edit_roles.contains role)
    else false

/-- `WorkflowPermissions.can_publish_workflow` (`app/core/permissions.py`):
"Only admins and managers can publish". -/
def can_publish_workflow (user : User) (workflow : Workflow) : Bool :=
  if user.role == "admin" then true
  else if workflow.created_by == user.id then
    (effective_roles user).any
      (fun role => ["manager", "supervisor", "department_head"].contains role)
  else false

/-- One `WorkflowStage` built from a node, given the id `flush` assigns. -/
def create_stage (workflow : Workflow) (idx : Nat) (node : Node) (sid : Int) :
    Except PyErr Stage := do
  let node_data := node.data
  let node_type := node.type?.getD (.vstr "approval")
  let atype ← approvalTypeOf (bagGetD node_data "approval_type" (.vstr "sequential"))
  .ok
    { id := sid
      workflow_id := workflow.id
      node_id := node.id
      node_type := nodeTypeFromValue node_type
      name := bagGetD node_data "label" (.vstr ("Stage " ++ toString (idx + 1)))
      order_index := Int.ofNat idx
      required_role := bagGet node_data "required_role"
      required_roles := bagGet node_data "required_roles"
      specific_users := bagGet node_data "specific_users"
      approval_type := atype
      required_approvals_count := bagGet node_data "required_approvals_count"
      condition_field := bagGet node_data "condition_field"
      condition_operator := bagGet node_data "condition_operator"
      condition_value := bagGet node_data "condition_value"
      sla_hours := bagGet node_data "sla_hours"
      escalation_role := bagGet node_data "escalation_role"
      escalation_user_id := bagGet node_data "escalation_user_id"
      auto_escalate := bagGetD node_data "auto_escalate" (.vbool false)
      notification_template := bagGet node_data "notification_template"
      custom_action := bagGet node_data "custom_action"
      position_x := bagGet node.position "x"
      position_y := bagGet node.position "y"
      next_stage_id := Option.none }

/-- The `for idx, node in enumerate(nodes)` loop: create and flush a
stage per node, recording `node_to_stage` (a dict, so a duplicate node id
overwrites its entry). -/
def create_stages (workflow : Workflow) :
    List Node → Nat → Int → List Stage → List (String × Int) →
    Except PyErr (List Stage × List (String × Int) × Int)
  | [], _, sid, accS, accM => .ok (accS.reverse, accM, sid)
  | node :: rest, idx, sid, accS, accM => do
      let stage ← create_stage workflow idx node sid
      create_stages workflow rest (idx + 1) (sid + 1) (stage :: accS) (smInsert accM node.id sid)

/-- The `for edge in edges` loop: skip edges with an unresolved endpoint;
a truthy `data.condition` adds a `ConditionalRoute`; otherwise set the
source stage's `next_stage_id` if it is still falsy. -/
def process_edges (node_to_stage : List (String × Int)) :
    List Edge → List Stage → List Route → List Stage × List Route
  | [], stages, routes => (stages, routes)
  | edge :: rest, stages, routes =>
    let edge_data := edge.data
    match smGet? node_to_stage edge.source, smGet? node_to_stage edge.target with
    | some src_id, some tgt_id =>
      if (bagGet edge_data "condition").truthy then
        process_edges node_to_stage rest stages
          (routes ++
            [{ from_stage_id := src_id
               to_stage_id := tgt_id
               condition_label := bagGet edge_data "label"
               condition_field := bagGet edge_data "condition_field"
               operator := bagGet edge_data "operator"
               condition_value := bagGet edge_data "condition_value"
               priority := bagGetD edge_data "priority" (.vnum 0) }])
      else
        process_edges node_to_stage rest
          (stages.map (fun s =>
            if s.id == src_id && !(optIntTruthy s.next_stage_id) then
              { s with next_stage_id := some tgt_id }
            else s))
          routes
    | _, _ => process_edges node_to_stage rest stages routes

/-- `VisualWorkflowService._sync_stages_from_graph`.  The source first
issues `DELETE` for the workflow's stages and only then a `DELETE` for
conditional routes whose `from_stage_id` is selected by a subquery over
the workflow's stages — a subquery evaluated against the already-emptied
stage table.  The model executes the two statements in that order. -/
def sync_stages_from_graph (db : WfDb) (workflow : Workflow) (graph_data : Graph) :
    Except PyErr WfDb := do
  let stages1 := db.stages.filter (fun s => !(s.workflow_id == workflow.id))
  let wf_stage_ids := (stages1.filter (fun s => s.workflow_id == workflow.id)).map (fun s => s.id)
  let routes1 := db.routes.filter (fun r => !(wf_stage_ids.contains r.from_stage_id))
  let nodes := graph_data.nodes?.getD []
  let edges := graph_data.edges?.getD []
  let (new_stages, node_to_stage, next_sid) ← create_stages workflow nodes 0 db.next_stage_id [] []
  let (new_stages, new_routes) := process_edges node_to_stage edges new_stages []
  .ok { db with
        stages := stages1 ++ new_stages
        routes := routes1 ++ new_routes
        next_stage_id := next_sid }

/-- The create branch of `save_workflow_graph` (`workflow_id` falsy). -/
def save_new_workflow (db : WfDb) (graph_data : Graph) (user : User) :
    Except SaveErr (WfDb × Workflow) :=
  let workflow : Workflow :=
    { id := db.next_workflow_id
      name := graph_data.name?.getD "New Workflow"
      description := graph_data.description?
      model_name := graph_data.model_name?.getD "GenericModel"
      workflow_graph := some graph_data
      version := 1
      status := .draft
      is_template := false
      created_by := user.id
      department_id := Option.none
      division_id := Option.none
      can_view_roles := []
      can_edit_roles := []
      can_use_roles := []
      published_at := Option.none
      updated_at := Option.none }
  let db1 := { db with
    workflows := db.workflows ++ [workflow]
    next_workflow_id := db.next_workflow_id + 1 }
  match sync_stages_from_graph db1 workflow graph_data with
  | .error e => .error (.py e)
  | .ok db2 => .ok (db2, workflow)

/-- `VisualWorkflowService.save_workflow_graph`; `now` is the
`datetime.utcnow()` reading for `updated_at`. -/
def save_workflow_graph (db : WfDb) (workflow_id : Option Int) (graph_data : Graph)
    (user : User) (description : Option String) (now : Int) :
    Except SaveErr (WfDb × Workflow) := do
  match validate_graph graph_data with
  | .error e => .error (.http e)
  | .ok () =>
    if optIntTruthy workflow_id then
      match db.workflows.find? (fun w => w.id == workflow_id.getD 0) with
      | Option.none => .error (.http (.notFound "Workflow not found"))
      | some workflow =>
        if !(can_edit user workflow) then
          .error (.http (.forbidden "No permission to edit workflow"))
        else
          let version_row : WVersion :=
            { workflow_id := workflow.id
              version_number := workflow.version
              workflow_graph := workflow.workflow_graph
              change_description := description
              created_by := user.id }
          let workflow1 := { workflow with
            workflow_graph := some graph_data
            version := workflow.version + 1
            updated_at := some now }
          let db1 := { db with
            versions := db.versions ++ [version_row]
            workflows := db.workflows.map (fun w => if w.id == workflow.id then workflow1 else w) }
          match sync_stages_from_graph db1 workflow1 graph_data with
          | .error e => .error (.py e)
          | .ok db2 => .ok (db2, workflow1)
    else
      save_new_workflow db graph_data user

/-- `VisualWorkflowService._validate_workflow_completeness`. -/
def validate_workflow_completeness (db : WfDb) (workflow : Workflow) : List String :=
  let stages := db.stages.filter (fun s => s.workflow_id == workflow.id)
  let errors := if stages.isEmpty then ["No stages defined"] else []
  errors ++
    ((stages.filter (fun s =>
        s.node_type == NodeType.approval &&
        !s.required_role.truthy && !s.required_roles.truthy && !s.specific_users.truthy)).map
      (fun s => "Stage \x27" ++ s.name.toPyStr ++ "\x27 missing required approvers"))

/-- `VisualWorkflowService.publish_workflow`: gate on `_can_edit`, then
completeness, then activate. -/
def publish_workflow (db : WfDb) (workflow_id : Int) (user : User) (now : Int) :
    Except HErr (WfDb × Workflow) :=
  match db.workflows.find? (fun w => w.id == workflow_id) with
  | Option.none => .error (.notFound "Workflow not found")
  | some workflow =>
    if !(can_edit user workflow) then .error (.forbidden "No permission to publish")
    else
      let errors := validate_workflow_completeness db workflow
      if !errors.isEmpty then
        .error (.badRequest
          ("Cannot publish incomplete workflow: " ++ String.intercalate ", " errors))
      else
        let workflow1 := { workflow with status := .active, published_at := some now }
        .ok ({ db with
               workflows := db.workflows.map
                 (fun w => if w.id == workflow_id then workflow1 else w) },
             workflow1)

/-! ## Auxiliary definitions for the theorems -/

/-- Does `_evaluate_policy` return a clean match for this policy? -/
def matchesOk (u r e : Bag) (p : Policy) : Bool :=
  match evaluate_policy p u r e with
  | .ok true => true
  | _ => false

/-- The `applied_policy` the decision loop ends with when no DENY fires:
the last matching policy of the scan order, or the accumulator if none
matches. -/
def lastMatchAux (u r e : Bag) : List Policy → Option Policy → Option Policy
  | [], acc => acc
  | p :: rest, acc =>
    lastMatchAux u r e rest (if matchesOk u r e p then some p else acc)

/-- Order produced by the decision loop's sort: priority non-increasing. -/
abbrev PriorityDesc (a b : Policy) : Prop := b.priority ≤ a.priority

/-! ## Concrete fixtures used by witnesses and counterexamples -/

def user0 : User :=
  { id := 5
    email := "u@example.com"
    username := "u"
    full_name := "U"
    role := "employee"
    is_active := true
    is_superuser := false
    roles := []
    department_id := Option.none
    division_id := Option.none }

/-- Like `user0` but holding the `editor` role. -/
def userEd : User :=
  { user0 with roles := ["editor"] }

def clock0 : Clock :=
  { current_time := "2026-01-05T10:00:00"
    current_date := "2026-01-05"
    current_hour := 10
    current_day_of_week := "Monday"
    current_month := 1
    current_year := 2026 }

def pAllowHi : Policy :=
  { id := 1
    name := "allow-hi"
    effect := .allow
    priority := 10
    action := "read"
    resource_type := "doc"
    conditions := Option.none
    department_ids := []
    division_ids := []
    role_requirements := []
    is_active := true }

def pAllowLo : Policy :=
  { pAllowHi with id := 2, name := "allow-lo", priority := 5 }

def pDeny : Policy :=
  { pAllowHi with id := 3, name := "deny-lo", priority := 1, effect := .deny }

/-- The shape of the seeded "Admin - Full Access" policy: wildcard action
and resource type. -/
def pStar : Policy :=
  { pAllowHi with id := 4, name := "admin-full-access", action := "*", resource_type := "*" }

def pScoped : Policy :=
  { pAllowHi with id := 5, name := "scoped", department_ids := [1] }

def dbC1 : Db :=
  { policies := [pAllowHi, pDeny], user_attributes := [], resource_attributes := [] }

def dbC2 : Db :=
  { policies := [pStar], user_attributes := [], resource_attributes := [] }

def dbC3 : Db :=
  { policies := [pAllowHi, pAllowLo], user_attributes := [], resource_attributes := [] }

def dbC4 : Db :=
  { policies := [pScoped], user_attributes := [], resource_attributes := [] }

def condW : Condition :=
  { attribute? := some (.vstr "user.id"), operator? := some (.vstr "gt"), value? := some (.vnum 1) }

def nStart : Node :=
  { id := "n1", type? := some (.vstr "start"), data := [], position := [] }

def nApproval : Node :=
  { id := "n2", type? := some (.vstr "approval"),
    data := [("label", .vstr "HR"), ("required_role", .vstr "hr")], position := [] }

def nEnd : Node :=
  { id := "n3", type? := some (.vstr "end"), data := [], position := [] }

/-- A well-formed three-node chain graph. -/
def g0 : Graph :=
  { nodes? := some [nStart, nApproval, nEnd]
    edges? := some [{ source := "n1", target := "n2", data := [] },
                    { source := "n2", target := "n3", data := [] }]
    name? := some "wf"
    description? := Option.none
    model_name? := Option.none }

/-- A start node whose data carries an approval type outside the enum. -/
def nBadStart : Node :=
  { nStart with data := [("approval_type", .vstr "bogus")] }

/-- Structurally valid graph with an out-of-enum `approval_type`. -/
def gBad : Graph :=
  { g0 with nodes? := some [nBadStart], edges? := some [] }

/-- A node whose `type` is no `NodeType` member. -/
def nOdd : Node :=
  { id := "nx", type? := some (.vstr "weird"), data := [], position := [] }

/-- Structurally valid graph containing a node of unknown type. -/
def gOdd : Graph :=
  { g0 with nodes? := some [nStart, nOdd], edges? := some [] }

def edgeGhost : Edge :=
  { source := "n1", target := "ghost", data := [] }

/-- Structurally valid graph with an edge to a nonexistent node id. -/
def gDangle : Graph :=
  { g0 with nodes? := some [nStart], edges? := some [edgeGhost] }

def emptyWfDb : WfDb :=
  { workflows := [], stages := [], routes := [], versions := [],
    next_workflow_id := 1, next_stage_id := 1 }

/-- An approval stage of workflow 1 from an earlier save. -/
def stHr : Stage :=
  { id := 7
    workflow_id := 1
    node_id := "old"
    node_type := .approval
    name := .vstr "Old"
    order_index := 0
    required_role := .vstr "hr"
    required_roles := .vnone
    specific_users := .vnone
    approval_type := .sequential
    required_approvals_count := .vnone
    condition_field := .vnone
    condition_operator := .vnone
    condition_value := .vnone
    sla_hours := .vnone
    escalation_role := .vnone
    escalation_user_id := .vnone
    auto_escalate := .vbool false
    notification_template := .vnone
    custom_action := .vnone
    position_x := .vnone
    position_y := .vnone
    next_stage_id := Option.none }

/-- A conditional route leaving `stHr`. -/
def rtStale : Route :=
  { from_stage_id := 7
    to_stage_id := 7
    condition_label := .vnone
    condition_field := .vstr "amount"
    operator := .vstr "gt"
    condition_value := .vstr "100"
    priority := .vnum 0 }

/-- Workflow 1, created by `user0`, already at version 3. -/
def wfMain : Workflow :=
  { id := 1
    name := "wf"
    description := Option.none
    model_name := "GenericModel"
    workflow_graph := some g0
    version := 3
    status := .draft
    is_template := false
    created_by := 5
    department_id := Option.none
    division_id := Option.none
    can_view_roles := []
    can_edit_roles := []
    can_use_roles := []
    published_at := Option.none
    updated_at := Option.none }

/-- Workflow 1 created by user 99, with `editor` in its edit role list. -/
def wfEd : Workflow :=
  { wfMain with created_by := 99, can_edit_roles := ["editor"] }

def wfdbC6 : WfDb :=
  { workflows := [wfEd], stages := [stHr], routes := [], versions := [],
    next_workflow_id := 2, next_stage_id := 8 }

def wfdbC7 : WfDb :=
  { workflows := [wfMain], stages := [], routes := [], versions := [],
    next_workflow_id := 2, next_stage_id := 1 }

def wfdbC8 : WfDb :=
  { workflows := [wfMain], stages := [stHr], routes := [rtStale], versions := [],
    next_workflow_id := 2, next_stage_id := 8 }

/-! ## Helper lemmas -/

/-- If some DENY policy in the scanned list matches cleanly and the loop
returns, the returned decision is `"deny"`: the scan only stops early at
a matching DENY, and a matching DENY always overwrites the decision. -/
theorem evaluate_loop_deny (u r e : Bag) (l : List Policy) :
    ∀ (st st' : DecisionState),
      evaluate_loop u r e l st = .ok st' →
      (∃ p, p ∈ l ∧ p.effect = PolicyEffect.deny ∧ evaluate_policy p u r e = .ok true) →
      st'.decision = "deny" := by
  induction l with
  | nil =>
    intro st st' h hex
    obtain ⟨p, hp, _, _⟩ := hex
    exact absurd hp (List.not_mem_nil p)
  | cons q rest ih =>
    intro st st' h hex
    rw [evaluate_loop] at h
    cases hq : evaluate_policy q u r e with
    | error err =>
      rw [hq] at h
      simp [Bind.bind, Except.bind] at h
    | ok b =>
      rw [hq] at h
      simp only [Bind.bind, Except.bind] at h
      cases b with
      | false =>
        simp only [if_neg Bool.false_ne_true] at h
        obtain ⟨p, hp, heff, hm⟩ := hex
        rcases List.mem_cons.mp hp with rfl | hp'
        · rw [hm] at hq; cases hq
        · exact ih _ _ h ⟨p, hp', heff, hm⟩
      | true =>
        simp only [if_true] at h
        by_cases hd : q.effect = PolicyEffect.deny
        · rw [if_pos hd] at h
          cases h
          simp [hd, PolicyEffect.value]
        · rw [if_neg hd] at h
          obtain ⟨p, hp, heff, hm⟩ := hex
          rcases List.mem_cons.mp hp with rfl | hp'
          · exact absurd heff hd
          · exact ih _ _ h ⟨p, hp', heff, hm⟩

theorem mem_insertByPriorityDesc (p q : Policy) (l : List Policy) :
    q ∈ insertByPriorityDesc p l ↔ q = p ∨ q ∈ l := by
  induction l with
  | nil => simp [insertByPriorityDesc]
  | cons x xs ih =>
    rw [insertByPriorityDesc]
    by_cases hc : x.priority < p.priority
    · simp [if_pos hc, List.mem_cons]
    · simp only [if_neg hc, List.mem_cons, ih]
      tauto

/-- The stable sort is a reordering: membership is preserved. -/
theorem mem_sort_by_priority_desc (q : Policy) (l : List Policy) :
    q ∈ sort_by_priority_desc l ↔ q ∈ l := by
  have key : ∀ (l acc : List Policy),
      (q ∈ l.foldl (fun acc p => insertByPriorityDesc p acc) acc ↔ q ∈ acc ∨ q ∈ l) := by
    intro l
    induction l with
    | nil => intro acc; simp
    | cons x xs ih =>
      intro acc
      rw [List.foldl_cons, ih, mem_insertByPriorityDesc]
      simp [List.mem_cons]
      tauto
  rw [sort_by_priority_desc, key]
  simp

theorem matchesOk_iff (u r e : Bag) (p : Policy) :
    matchesOk u r e p = true ↔ evaluate_policy p u r e = .ok true := by
  rw [matchesOk]
  cases h : evaluate_policy p u r e with
  | error err => simp
  | ok b => cases b <;> simp

theorem pairwise_insertByPriorityDesc (p : Policy) (l : List Policy)
    (h : l.Pairwise PriorityDesc) :
    (insertByPriorityDesc p l).Pairwise PriorityDesc := by
  induction l with
  | nil => simp [insertByPriorityDesc, h]
  | cons x xs ih =>
    rw [insertByPriorityDesc]
    by_cases hc : x.priority < p.priority
    · rw [if_pos hc]
      refine List.Pairwise.cons ?_ h
      intro b hb
      rcases List.mem_cons.mp hb with rfl | hb'
      · exact le_of_lt hc
      · exact le_trans ((List.pairwise_cons.mp h).1 b hb') (le_of_lt hc)
    · rw [if_neg hc]
      rcases List.pairwise_cons.mp h with ⟨hx, hxs⟩
      refine List.Pairwise.cons ?_ (ih hxs)
      intro b hb
      rcases (mem_insertByPriorityDesc p b xs).mp hb with rfl | hb'
      · exact le_of_not_lt hc
      · exact hx b hb'

/-- The decision loop's sort really sorts: priorities are
non-increasing along the scan. -/
theorem pairwise_sort_by_priority_desc (l : List Policy) :
    (sort_by_priority_desc l).Pairwise PriorityDesc := by
  have key : ∀ (l acc : List Policy), acc.Pairwise PriorityDesc →
      (l.foldl (fun acc p => insertByPriorityDesc p acc) acc).Pairwise PriorityDesc := by
    intro l
    induction l with
    | nil => intro acc h; simpa using h
    | cons x xs ih =>
      intro acc h
      rw [List.foldl_cons]
      exact ih _ (pairwise_insertByPriorityDesc x acc h)
  exact key l [] (List.Pairwise.nil)

/-- Over a priority-sorted scan, the last matching policy has minimal
priority among all matching policies of the scan. -/
theorem lastMatchAux_min (u r e : Bag) (l : List Policy) :
    ∀ (acc : Option Policy) (m : Policy), l.Pairwise PriorityDesc →
      lastMatchAux u r e l acc = some m →
      (m ∈ l ∧ matchesOk u r e m = true ∧
        ∀ q ∈ l, matchesOk u r e q = true → m.priority ≤ q.priority) ∨
      ((∀ q ∈ l, matchesOk u r e q = false) ∧ acc = some m) := by
  induction l with
  | nil =>
    intro acc m _ h
    right
    exact ⟨by simp, h⟩
  | cons p rest ih =>
    intro acc m hpw h
    rcases List.pairwise_cons.mp hpw with ⟨hp, hrest⟩
    rw [lastMatchAux] at h
    by_cases hm : matchesOk u r e p = true
    · rw [if_pos hm] at h
      rcases ih _ _ hrest h with ⟨hmem, hmOk, hmin⟩ | ⟨hnone, hacc⟩
      · left
        refine ⟨List.mem_cons_of_mem _ hmem, hmOk, ?_⟩
        intro q hq _
        rcases List.mem_cons.mp hq with rfl | hq'
        · exact hp m hmem
        · exact hmin q hq' (by assumption)
      · left
        obtain rfl : m = p := Option.some.inj hacc.symm
        refine ⟨List.mem_cons_self _ _, hm, ?_⟩
        intro q hq hqOk
        rcases List.mem_cons.mp hq with rfl | hq'
        · exact le_refl _
        · exact absurd hqOk (by simp [hnone q hq'])
    · rw [if_neg hm] at h
      rcases ih _ _ hrest h with ⟨hmem, hmOk, hmin⟩ | ⟨hnone, hacc⟩
      · left
        refine ⟨List.mem_cons_of_mem _ hmem, hmOk, ?_⟩
        intro q hq hqOk
        rcases List.mem_cons.mp hq with rfl | hq'
        · exact absurd hqOk (by simp [hm])
        · exact hmin q hq' hqOk
      · right
        refine ⟨?_, hacc⟩
        intro q hq
        rcases List.mem_cons.mp hq with rfl | hq'
        · simpa using hm
        · exact hnone q hq'

/-- When every clean match in the scanned list is an ALLOW, the loop
never breaks early and its final `applied_policy` is the last match. -/
theorem evaluate_loop_applied (u r e : Bag) (l : List Policy) :
    ∀ (st st' : DecisionState),
      evaluate_loop u r e l st = .ok st' →
      (∀ p, p ∈ l → evaluate_policy p u r e = .ok true → p.effect = PolicyEffect.allow) →
      st'.applied_policy = lastMatchAux u r e l st.applied_policy := by
  induction l with
  | nil =>
    intro st st' h _
    cases h
    rfl
  | cons q rest ih =>
    intro st st' h hall
    rw [evaluate_loop] at h
    rw [lastMatchAux]
    cases hq : evaluate_policy q u r e with
    | error err =>
      rw [hq] at h
      simp [Bind.bind, Except.bind] at h
    | ok b =>
      rw [hq] at h
      simp only [Bind.bind, Except.bind] at h
      cases b with
      | false =>
        simp only [if_neg Bool.false_ne_true] at h
        have hmOk : matchesOk u r e q = false := by
          rw [matchesOk, hq]
        rw [hmOk]
        simp only [if_neg Bool.false_ne_true]
        exact ih { st with evaluated_policy_ids := st.evaluated_policy_ids ++ [q.id] } st' h
          (fun p hp => hall p (List.mem_cons_of_mem _ hp))
      | true =>
        simp only [if_true] at h
        have heff : q.effect = PolicyEffect.allow :=
          hall q (List.mem_cons_self _ _) hq
        rw [if_neg (by rw [heff]; intro hcon; cases hcon)] at h
        have hmOk : matchesOk u r e q = true := by
          rw [matchesOk, hq]
        rw [hmOk, if_pos rfl]
        exact ih
          { st with evaluated_policy_ids := st.evaluated_policy_ids ++ [q.id],
                    decision := q.effect.value,
                    reason := "Policy \x27" ++ q.name ++ "\x27 matched",
                    applied_policy := some q } st' h
          (fun p hp => hall p (List.mem_cons_of_mem _ hp))

theorem lastMatchAux_some_of_acc (u r e : Bag) (l : List Policy) :
    ∀ (a : Policy), (lastMatchAux u r e l (some a)).isSome = true := by
  induction l with
  | nil => intro a; rfl
  | cons p rest ih =>
    intro a
    rw [lastMatchAux]
    by_cases hm : matchesOk u r e p = true
    · rw [if_pos hm]; exact ih p
    · rw [if_neg hm]; exact ih a

theorem lastMatchAux_isSome (u r e : Bag) (l : List Policy) :
    ∀ (acc : Option Policy), (∃ p ∈ l, matchesOk u r e p = true) →
      (lastMatchAux u r e l acc).isSome = true := by
  induction l with
  | nil =>
    intro acc h
    obtain ⟨p, hp, _⟩ := h
    exact absurd hp (List.not_mem_nil p)
  | cons q rest ih =>
    intro acc h
    rw [lastMatchAux]
    by_cases hm : matchesOk u r e q = true
    · rw [if_pos hm]; exact lastMatchAux_some_of_acc u r e rest q
    · rw [if_neg hm]
      obtain ⟨p, hp, hpOk⟩ := h
      rcases List.mem_cons.mp hp with rfl | hp'
      · exact absurd hpOk hm
      · exact ih acc ⟨p, hp', hpOk⟩

/-- Stage compilation rewrites only stages, routes and the id counter:
the version and workflow tables pass through unchanged. -/
theorem sync_preserves_versions (d : WfDb) (w : Workflow) (g : Graph) (d' : WfDb)
    (h : sync_stages_from_graph d w g = .ok d') :
    d'.versions = d.versions ∧ d'.workflows = d.workflows := by
  unfold sync_stages_from_graph at h
  dsimp only at h
  cases hc : create_stages w (g.nodes?.getD []) 0 d.next_stage_id [] [] with
  | error e =>
    rw [hc] at h
    simp [Bind.bind, Except.bind] at h
  | ok t =>
    obtain ⟨s, m, n⟩ := t
    rw [hc] at h
    simp only [Bind.bind, Except.bind] at h
    cases h
    exact ⟨rfl, rfl⟩

/-! ## Claims -/

/-- Claim C1 (confirmed).  Deny-overrides: whenever `check_access`
returns, if any candidate policy of effect DENY has a matching condition
group (a clean `True` from `_evaluate_policy` on the request's attribute
bags), the returned `allowed` flag is `false`, regardless of how many
ALLOW candidates also match. -/
theorem deny_overrides_holds
    (db : Db) (clock : Clock) (user : User) (action resource_type : String)
    (resource_id : Option Int) (resource_obj : Option Bag) (context : Option Bag)
    (allowed : Bool) (reason : String) (applied : Option Policy)
    (hret : check_access db clock user action resource_type resource_id resource_obj context
      = .ok (allowed, reason, applied))
    (p : Policy)
    (hmem : p ∈ get_applicable_policies db action resource_type user)
    (heff : p.effect = PolicyEffect.deny)
    (hmatch : evaluate_policy p
        (get_user_attributes db user)
        (get_resource_attributes db resource_type resource_id resource_obj)
        (get_environment_attributes clock context) = .ok true) :
    allowed = false := by
  rw [check_access] at hret
  cases hloop : evaluate_loop
      (get_user_attributes db user)
      (get_resource_attributes db resource_type resource_id resource_obj)
      (get_environment_attributes clock context)
      (sort_by_priority_desc (get_applicable_policies db action resource_type user))
      { decision := "deny", reason := "No matching policy found",
        applied_policy := Option.none, evaluated_policy_ids := [] } with
  | error err =>
    rw [hloop] at hret
    simp [Bind.bind, Except.bind] at hret
  | ok st =>
    rw [hloop] at hret
    simp only [Bind.bind, Except.bind, Except.ok.injEq, Prod.mk.injEq] at hret
    have hdec : st.decision = "deny" := by
      refine evaluate_loop_deny _ _ _ _ _ _ hloop ⟨p, ?_, heff, hmatch⟩
      exact (mem_sort_by_priority_desc p _).mpr hmem
    rw [← hret.1, hdec]
    rfl

/-- Witness for C1: a concrete database where a low-priority DENY beats
a high-priority ALLOW. -/
theorem deny_overrides_holds_witness :
    check_access dbC1 clock0 user0 "read" "doc" Option.none Option.none Option.none
      = .ok (false, "Policy \x27deny-lo\x27 matched", some pDeny) ∧ false = false := by
  constructor
  · rfl
  · exact deny_overrides_holds dbC1 clock0 user0 "read" "doc" Option.none Option.none Option.none
      false ("Policy \x27deny-lo\x27 matched") (some pDeny) rfl pDeny
      (by show pDeny ∈ [pAllowHi, pDeny]
          exact List.mem_cons_of_mem _ (List.mem_cons_self _ _))
      rfl rfl

/-- Claim C2 (code bug).  The claim says a policy with `action = "*"` (or
`resource_type = "*"`) is a candidate for every requested action
(resource type).  `_get_applicable_policies` filters with exact equality
only, so the wildcard policy the repository itself seeds
("Admin - Full Access", `action="*"`, `resource_type="*"`) is a
candidate for no request except the literal action `"*"` on the literal
resource type `"*"`, and `check_access` falls through to the default
deny. -/
theorem wildcard_policy_never_candidate :
    pStar.action = "*" ∧ pStar.resource_type = "*" ∧ pStar.is_active = true ∧
    get_applicable_policies dbC2 "read" "invoice" user0 = [] ∧
    check_access dbC2 clock0 user0 "read" "invoice" Option.none Option.none Option.none
      = .ok (false, "No matching policy found", Option.none) ∧
    get_applicable_policies dbC2 "*" "*" user0 = [pStar] :=
  ⟨rfl, rfl, rfl, rfl, rfl, rfl⟩

/-- Counterexample to claim C3: two unconditional ALLOW candidates with
priorities 10 and 5; the scan continues after the high-priority match
and overwrites `applied_policy`, so `check_access` reports the
priority-5 policy as matched — not the highest-priority one. -/
theorem matched_policy_not_highest_cex :
    get_applicable_policies dbC3 "read" "doc" user0 = [pAllowHi, pAllowLo] ∧
    pAllowHi.effect = PolicyEffect.allow ∧
    pAllowLo.effect = PolicyEffect.allow ∧
    evaluate_policy pAllowHi (get_user_attributes dbC3 user0)
      (get_resource_attributes dbC3 "doc" Option.none Option.none)
      (get_environment_attributes clock0 Option.none) = .ok true ∧
    evaluate_policy pAllowLo (get_user_attributes dbC3 user0)
      (get_resource_attributes dbC3 "doc" Option.none Option.none)
      (get_environment_attributes clock0 Option.none) = .ok true ∧
    pAllowLo.priority < pAllowHi.priority ∧
    check_access dbC3 clock0 user0 "read" "doc" Option.none Option.none Option.none
      = .ok (true, "Policy \x27allow-lo\x27 matched", some pAllowLo) :=
  ⟨rfl, rfl, rfl, rfl, rfl, by decide, rfl⟩

/-- Claim C3 (corrected).  For a request whose matching candidates all
have effect ALLOW, the `matched_policy` returned by `check_access` is a
matching candidate of MINIMAL priority among the matching candidates
(the last match of the priority-descending scan), not the
highest-priority one; no id tie-break exists. -/
theorem matched_policy_lowest_priority
    (db : Db) (clock : Clock) (user : User) (action resource_type : String)
    (resource_id : Option Int) (resource_obj : Option Bag) (context : Option Bag)
    (allowed : Bool) (reason : String) (applied : Option Policy)
    (hret : check_access db clock user action resource_type resource_id resource_obj context
      = .ok (allowed, reason, applied))
    (hall : ∀ p, p ∈ get_applicable_policies db action resource_type user →
        evaluate_policy p (get_user_attributes db user)
          (get_resource_attributes db resource_type resource_id resource_obj)
          (get_environment_attributes clock context) = .ok true →
        p.effect = PolicyEffect.allow)
    (pm : Policy)
    (hpm : pm ∈ get_applicable_policies db action resource_type user)
    (hpmOk : evaluate_policy pm (get_user_attributes db user)
        (get_resource_attributes db resource_type resource_id resource_obj)
        (get_environment_attributes clock context) = .ok true) :
    ∃ m, applied = some m ∧ m ∈ get_applicable_policies db action resource_type user ∧
      evaluate_policy m (get_user_attributes db user)
        (get_resource_attributes db resource_type resource_id resource_obj)
        (get_environment_attributes clock context) = .ok true ∧
      ∀ q, q ∈ get_applicable_policies db action resource_type user →
        evaluate_policy q (get_user_attributes db user)
          (get_resource_attributes db resource_type resource_id resource_obj)
          (get_environment_attributes clock context) = .ok true →
        m.priority ≤ q.priority := by
  rw [check_access] at hret
  cases hloop : evaluate_loop
      (get_user_attributes db user)
      (get_resource_attributes db resource_type resource_id resource_obj)
      (get_environment_attributes clock context)
      (sort_by_priority_desc (get_applicable_policies db action resource_type user))
      { decision := "deny", reason := "No matching policy found",
        applied_policy := Option.none, evaluated_policy_ids := [] } with
  | error err =>
    rw [hloop] at hret
    simp [Bind.bind, Except.bind] at hret
  | ok st =>
    rw [hloop] at hret
    simp only [Bind.bind, Except.bind, Except.ok.injEq, Prod.mk.injEq] at hret
    have happ : applied = st.applied_policy := hret.2.2.symm
    have hsorted : ∀ p, p ∈ sort_by_priority_desc (get_applicable_policies db action resource_type user) →
        evaluate_policy p (get_user_attributes db user)
          (get_resource_attributes db resource_type resource_id resource_obj)
          (get_environment_attributes clock context) = .ok true →
        p.effect = PolicyEffect.allow := by
      intro p hp hok
      exact hall p ((mem_sort_by_priority_desc p _).mp hp) hok
    have hloop2 := evaluate_loop_applied _ _ _ _ _ _ hloop hsorted
    have hex : (∃ p ∈ sort_by_priority_desc (get_applicable_policies db action resource_type user),
        matchesOk (get_user_attributes db user)
          (get_resource_attributes db resource_type resource_id resource_obj)
          (get_environment_attributes clock context) p = true) :=
      ⟨pm, (mem_sort_by_priority_desc pm _).mpr hpm, (matchesOk_iff _ _ _ _).mpr hpmOk⟩
    have hsome := lastMatchAux_isSome _ _ _ _ Option.none hex
    rw [← hloop2] at hsome
    obtain ⟨m, hm⟩ := Option.isSome_iff_exists.mp hsome
    refine ⟨m, by rw [happ, hm], ?_⟩
    have hmin := lastMatchAux_min _ _ _ _ Option.none m
      (pairwise_sort_by_priority_desc _) (by rw [← hloop2, hm])
    rcases hmin with ⟨hmem, hmOk, hminp⟩ | ⟨_, hbad⟩
    · refine ⟨(mem_sort_by_priority_desc m _).mp hmem, (matchesOk_iff _ _ _ _).mp hmOk, ?_⟩
      intro q hq hqOk
      exact hminp q ((mem_sort_by_priority_desc q _).mpr hq) ((matchesOk_iff _ _ _ _).mpr hqOk)
    · cases hbad

/-- Witness for the corrected C3 at the counterexample database: the
returned match is `pAllowLo`, which indeed has minimal priority. -/
theorem matched_policy_lowest_priority_witness :
    (pAllowHi ∈ get_applicable_policies dbC3 "read" "doc" user0) ∧
    (∃ m, (some pAllowLo : Option Policy) = some m ∧
      m ∈ get_applicable_policies dbC3 "read" "doc" user0 ∧
      evaluate_policy m (get_user_attributes dbC3 user0)
        (get_resource_attributes dbC3 "doc" Option.none Option.none)
        (get_environment_attributes clock0 Option.none) = .ok true ∧
      ∀ q, q ∈ get_applicable_policies dbC3 "read" "doc" user0 →
        evaluate_policy q (get_user_attributes dbC3 user0)
          (get_resource_attributes dbC3 "doc" Option.none Option.none)
          (get_environment_attributes clock0 Option.none) = .ok true →
        m.priority ≤ q.priority) := by
  constructor
  · show pAllowHi ∈ [pAllowHi, pAllowLo]
    exact List.mem_cons_self _ _
  · exact matched_policy_lowest_priority dbC3 clock0 user0 "read" "doc"
      Option.none Option.none Option.none
      true ("Policy \x27allow-lo\x27 matched") (some pAllowLo) rfl
      (by intro p hp _
          have hp' : p ∈ [pAllowHi, pAllowLo] := hp
          rcases List.mem_cons.mp hp' with rfl | hp''
          · rfl
          · rcases List.mem_cons.mp hp'' with rfl | hp'''
            · rfl
            · exact absurd hp''' (List.not_mem_nil p))
      pAllowHi
      (by show pAllowHi ∈ [pAllowHi, pAllowLo]; exact List.mem_cons_self _ _)
      rfl

/-- Counterexample to claim C4: a subject with no `UserAttribute` row and
a policy scoped to department 1 — the policy is NOT dropped; it becomes
the matched policy of an allow decision. -/
theorem scoped_policy_kept_without_profile_cex :
    dbC4.user_attributes = [] ∧
    pScoped.department_ids = [1] ∧
    get_applicable_policies dbC4 "read" "doc" user0 = [pScoped] ∧
    check_access dbC4 clock0 user0 "read" "doc" Option.none Option.none Option.none
      = .ok (true, "Policy \x27scoped\x27 matched", some pScoped) :=
  ⟨rfl, rfl, rfl, rfl⟩

/-- Claim C4 (corrected).  The scope guards run only when the subject
HAS a `UserAttribute` row: for a subject without one, `department_ids`
and `division_ids` are ignored entirely and the candidate set is exactly
the active/action/resource-type matches that pass the role-requirement
filter. -/
theorem scope_filters_skipped_without_profile
    (db : Db) (action resource_type : String) (user : User)
    (hprof : db.user_attributes.find? (fun a => a.user_id == user.id) = Option.none) :
    get_applicable_policies db action resource_type user =
      (db.policies.filter (fun p =>
          p.is_active && p.action == action && p.resource_type == resource_type)).filter
        (fun policy => policy.role_requirements.isEmpty ||
          (effective_roles user).any (fun role => policy.role_requirements.contains role)) := by
  rw [get_applicable_policies, hprof]
  simp [scope_keeps]

/-- Witness for the corrected C4 at the counterexample database. -/
theorem scope_filters_skipped_without_profile_witness :
    (dbC4.user_attributes.find? (fun a => a.user_id == user0.id) = Option.none) ∧
    get_applicable_policies dbC4 "read" "doc" user0 =
      (dbC4.policies.filter (fun p =>
          p.is_active && p.action == "read" && p.resource_type == "doc")).filter
        (fun policy => policy.role_requirements.isEmpty ||
          (effective_roles user0).any (fun role => policy.role_requirements.contains role)) :=
  ⟨rfl, scope_filters_skipped_without_profile dbC4 "read" "doc" user0 rfl⟩

/-- Counterexample to claim C5: a condition document without an
`attribute` key makes `_get_attribute_value` call `.split` on `None`,
raising an uncaught `AttributeError` — the evaluator is not total. -/
theorem missing_attribute_key_raises_cex :
    evaluate_condition
      { attribute? := Option.none, operator? := some (.vstr "eq"), value? := some (.vnum 3) }
      [] [] [] = .error PyErr.attributeError :=
  rfl

/-- Operator application never escapes with anything but
`OverflowError`: every other exception the body can raise is in the
`except` clause's tuple and becomes `False`. -/
theorem apply_operator_ok_or_overflow (op actual expected : Value) :
    (∃ b, apply_operator op actual expected = .ok b) ∨
    apply_operator op actual expected = .error PyErr.overflowError := by
  cases op with
  | vstr s =>
    have key : ∀ r, applyOperatorBody s actual expected = r →
        (∃ b, apply_operator_str s actual expected = .ok b) ∨
        apply_operator_str s actual expected = .error PyErr.overflowError := by
      intro r h
      cases r with
      | ok b => exact Or.inl ⟨b, by rw [apply_operator_str, h]⟩
      | error e =>
        cases e with
        | attributeError => exact Or.inl ⟨false, by rw [apply_operator_str, h]; rfl⟩
        | valueError => exact Or.inl ⟨false, by rw [apply_operator_str, h]; rfl⟩
        | typeError => exact Or.inl ⟨false, by rw [apply_operator_str, h]; rfl⟩
        | overflowError => exact Or.inr (by rw [apply_operator_str, h]; rfl)
    exact key _ rfl
  | vnone => exact Or.inl ⟨false, rfl⟩
  | vbool b => exact Or.inl ⟨false, rfl⟩
  | vnum q => exact Or.inl ⟨false, rfl⟩
  | vlist l => exact Or.inl ⟨false, rfl⟩
  | vdict d => exact Or.inl ⟨false, rfl⟩

/-- Claim C5 (corrected).  For every condition whose `attribute` entry
is a string (any path, operator, operand, bags), evaluation either
returns a boolean or raises the one exception the operator clause does
not catch: `OverflowError`, from `float()` on an int at or beyond the
IEEE-double range.  An unknown operator yields `false`; a caught
coercion failure (`ValueError`/`TypeError`/`AttributeError`) of the
left operand yields `false` for the ordered comparisons, while an
`OverflowError` there propagates uncaught.  (A condition whose
`attribute` key is missing or non-string instead raises
`AttributeError`, per the counterexample.) -/
theorem evaluator_exceptions_characterized :
    (∀ (c : Condition) (u r e : Bag) (s : String),
        c.attribute? = some (.vstr s) →
        (∃ b, evaluate_condition c u r e = .ok b) ∨
        evaluate_condition c u r e = .error PyErr.overflowError) ∧
    (∀ (op : String) (actual expected : Value),
        op ∉ ["eq", "ne", "gt", "gte", "lt", "lte", "in", "not_in", "contains",
              "starts_with", "ends_with", "between", "is_null", "is_not_null"] →
        apply_operator_str op actual expected = .ok false) ∧
    (∀ (op : String) (actual expected : Value) (er : PyErr),
        (op = "gt" ∨ op = "gte" ∨ op = "lt" ∨ op = "lte") →
        actual.toNum = .error er →
        caughtByApplyOperator er = true →
        apply_operator_str op actual expected = .ok false) ∧
    (∀ (op : String) (actual expected : Value),
        (op = "gt" ∨ op = "gte" ∨ op = "lt" ∨ op = "lte") →
        actual.toNum = .error PyErr.overflowError →
        apply_operator_str op actual expected = .error PyErr.overflowError) := by
  refine ⟨?_, ?_, ?_, ?_⟩
  · intro c u r e s h
    unfold evaluate_condition
    rw [h]
    exact apply_operator_ok_or_overflow _ _ _
  · intro op actual expected h
    simp only [List.mem_cons, List.not_mem_nil, or_false, not_or] at h
    obtain ⟨h1, h2, h3, h4, h5, h6, h7, h8, h9, h10, h11, h12, h13, h14⟩ := h
    simp [apply_operator_str, applyOperatorBody,
      h1, h2, h3, h4, h5, h6, h7, h8, h9, h10, h11, h12, h13, h14]
  · intro op actual expected er hop hnum hcaught
    rcases hop with rfl | rfl | rfl | rfl <;>
      simp [apply_operator_str, applyOperatorBody, Bind.bind, Except.bind, hnum, hcaught]
  · intro op actual expected hop hnum
    rcases hop with rfl | rfl | rfl | rfl <;>
      simp [apply_operator_str, applyOperatorBody, Bind.bind, Except.bind, hnum,
        caughtByApplyOperator]

set_option maxRecDepth 8000 in
/-- Witness for the corrected C5: `10^309` overflows the coercion; a
concrete string-path condition evaluates under the dichotomy; a
concrete unknown operator and a concrete caught coercion failure yield
`false`; the concrete overflow escapes the operator clause. -/
theorem evaluator_exceptions_characterized_witness :
    Value.toNum (.vnum ((10 : Rat) ^ 309)) = .error PyErr.overflowError ∧
    ((∃ b, evaluate_condition condW [] [] [] = .ok b) ∨
      evaluate_condition condW [] [] [] = .error PyErr.overflowError) ∧
    apply_operator_str "matches" (.vnum 1) (.vnum 2) = .ok false ∧
    apply_operator_str "gt" .vnone (.vnum 2) = .ok false ∧
    apply_operator_str "gt" (.vnum ((10 : Rat) ^ 309)) (.vnum 2)
      = .error PyErr.overflowError :=
  ⟨rfl,
   evaluator_exceptions_characterized.1 condW [] [] [] "user.id" rfl,
   evaluator_exceptions_characterized.2.1 "matches" (.vnum 1) (.vnum 2) (by decide),
   evaluator_exceptions_characterized.2.2.1 "gt" .vnone (.vnum 2) PyErr.typeError
     (Or.inl rfl) rfl rfl,
   evaluator_exceptions_characterized.2.2.2 "gt" (.vnum ((10 : Rat) ^ 309)) (.vnum 2)
     (Or.inl rfl) rfl⟩

/-- Claim C6 (code bug).  `publish_workflow` gates publishing on
`_can_edit`, not on `WorkflowPermissions.can_publish_workflow`: a
non-creator, non-admin subject whose role is in the workflow's edit role
list publishes successfully, although the permissions module (and the
claim) say only admins, or creators holding a manager-class role, may
publish. -/
theorem publish_gate_is_edit_gate :
    userEd.role = "employee" ∧
    wfEd.created_by = 99 ∧
    userEd.id = 5 ∧
    wfEd.can_edit_roles = ["editor"] ∧
    userEd.roles = ["editor"] ∧
    can_publish_workflow userEd wfEd = false ∧
    can_edit userEd wfEd = true ∧
    (publish_workflow wfdbC6 1 userEd 50).map (fun p => (p.snd.status, p.snd.published_at))
      = .ok (WorkflowStatus.active, some 50) :=
  ⟨rfl, rfl, rfl, rfl, rfl, rfl, rfl, rfl⟩

/-- Claim C7 (confirmed).  A successful `save_workflow_graph` on an
existing definition bumps its version by exactly one, stores the new
graph, and leaves a `WorkflowVersion` snapshot carrying the pre-save
version number and the pre-save graph. -/
theorem save_increments_version_and_snapshots
    (db : WfDb) (wid : Int) (graph_data : Graph) (user : User)
    (description : Option String) (now : Int) (w : Workflow) (db' : WfDb) (w' : Workflow)
    (hwid : wid ≠ 0)
    (hfind : db.workflows.find? (fun x => x.id == wid) = some w)
    (hret : save_workflow_graph db (some wid) graph_data user description now = .ok (db', w')) :
    w'.version = w.version + 1 ∧
    w'.workflow_graph = some graph_data ∧
    ({ workflow_id := w.id, version_number := w.version, workflow_graph := w.workflow_graph,
       change_description := description, created_by := user.id } : WVersion) ∈ db'.versions := by
  unfold save_workflow_graph at hret
  dsimp only at hret
  cases hv : validate_graph graph_data with
  | error e =>
    rw [hv] at hret
    simp at hret
  | ok u =>
    rw [hv] at hret
    have ht : optIntTruthy (some wid) = true := by
      simp [optIntTruthy, hwid]
    rw [ht] at hret
    simp only [if_true] at hret
    simp only [Option.getD_some] at hret
    rw [hfind] at hret
    dsimp only at hret
    cases hce : can_edit user w with
    | false =>
      rw [hce] at hret
      simp at hret
    | true =>
      rw [hce] at hret
      simp only [Bool.not_true] at hret
      rw [if_neg (by simp)] at hret
      cases hs : sync_stages_from_graph
          { db with
            versions := db.versions ++
              [{ workflow_id := w.id, version_number := w.version,
                 workflow_graph := w.workflow_graph, change_description := description,
                 created_by := user.id }]
            workflows := db.workflows.map
              (fun x => if x.id == w.id then
                { w with workflow_graph := some graph_data, version := w.version + 1,
                         updated_at := some now }
                else x) }
          { w with workflow_graph := some graph_data, version := w.version + 1,
                   updated_at := some now }
          graph_data with
      | error e =>
        rw [hs] at hret
        simp at hret
      | ok db2 =>
        rw [hs] at hret
        simp only [Except.ok.injEq, Prod.mk.injEq] at hret
        obtain ⟨hdb2, hw1⟩ := hret
        refine ⟨by rw [← hw1], by rw [← hw1], ?_⟩
        rw [← hdb2, (sync_preserves_versions _ _ _ _ hs).1]
        exact List.mem_append_right _ (List.mem_singleton.mpr rfl)

/-- Witness for C7: saving graph `g0` over workflow 1 (version 3)
produces version 4 and a version-3 snapshot of the old graph. -/
theorem save_increments_version_and_snapshots_witness :
    ∃ db' w', save_workflow_graph wfdbC7 (some 1) g0 user0 (some "edit") 100 = .ok (db', w') ∧
      (w'.version = wfMain.version + 1 ∧
       w'.workflow_graph = some g0 ∧
       ({ workflow_id := wfMain.id, version_number := wfMain.version,
          workflow_graph := wfMain.workflow_graph, change_description := some "edit",
          created_by := user0.id } : WVersion) ∈ db'.versions) := by
  obtain ⟨db', w', hret⟩ :
      ∃ d w, save_workflow_graph wfdbC7 (some 1) g0 user0 (some "edit") 100 = .ok (d, w) :=
    ⟨_, _, rfl⟩
  exact ⟨db', w', hret,
    save_increments_version_and_snapshots wfdbC7 1 g0 user0 (some "edit") 100 wfMain db' w'
      (by decide) rfl hret⟩

/-- Claim C8 (code bug).  After a save, the stages are rebuilt from the
graph (exactly the node ids, as claimed), but the pre-existing
conditional route of the workflow's old stage survives: the route
`DELETE` subquery runs after the stage `DELETE` and therefore selects
nothing, leaving `rtStale` dangling from deleted stage 7. -/
theorem stale_routes_survive_save :
    wfdbC8.stages = [stHr] ∧
    stHr.workflow_id = wfMain.id ∧
    wfdbC8.routes = [rtStale] ∧
    rtStale.from_stage_id = stHr.id ∧
    (save_workflow_graph wfdbC8 (some 1) g0 user0 Option.none 99).map
      (fun p => (p.fst.routes, p.fst.stages.map (fun s => (s.workflow_id, s.node_id)))) =
      .ok ([rtStale], [(1, "n1"), (1, "n2"), (1, "n3")]) :=
  ⟨rfl, rfl, rfl, rfl, rfl⟩

/-- Counterexample to claim C9: a graph whose only edge targets the
nonexistent node id `"ghost"` passes `_validate_graph` and the whole
save succeeds — edge endpoints are never validated (the compiler
silently skips unresolved edges). -/
theorem dangling_edge_passes_validation_cex :
    gDangle.nodes? = some [nStart] ∧
    nStart.id = "n1" ∧
    gDangle.edges? = some [edgeGhost] ∧
    edgeGhost.target = "ghost" ∧
    validate_graph gDangle = .ok () ∧
    (save_workflow_graph emptyWfDb Option.none gDangle user0 Option.none 99).isOk = true :=
  ⟨rfl, rfl, rfl, rfl, rfl, rfl⟩

/-- Claim C9 (corrected).  Validation succeeds exactly when the graph
has a `nodes` key, an `edges` key, a non-empty node list, and some node
of type `start`.  Duplicate node ids and dangling edge endpoints are
not checked (see the counterexample for a dangling edge accepted
end-to-end). -/
theorem validate_graph_checks (g : Graph) :
    (validate_graph g).isOk =
      (g.nodes?.isSome && g.edges?.isSome && !(g.nodes?.getD []).isEmpty &&
        (g.nodes?.getD []).any nodeIsStart) := by
  cases hn : g.nodes? with
  | none =>
    cases he : g.edges? <;>
      simp [validate_graph, hn, he, Except.isOk, Except.toBool]
  | some nodes =>
    cases he : g.edges? with
    | none => simp [validate_graph, hn, he, Except.isOk, Except.toBool]
    | some edges =>
      simp only [validate_graph, hn, he, Option.isSome_some, Option.getD_some, Bool.true_and]
      cases hne : nodes.isEmpty with
      | true => simp [hne, Except.isOk, Except.toBool]
      | false =>
        cases hs : nodes.any nodeIsStart with
        | true => simp [hne, hs, Except.isOk, Except.toBool]
        | false => simp [hne, hs, Except.isOk, Except.toBool]

/-- Claim C10 (confirmed).  The stage compiler is not total over
validated graphs: `gBad` passes structural validation but its
`approval_type` of `"bogus"` makes the `ApprovalType` enum constructor
raise an uncaught `ValueError`, aborting the save — while a node whose
`type` is unknown (`gOdd`'s `"weird"`) silently compiles to an APPROVAL
stage. -/
theorem unknown_approval_type_aborts_save :
    validate_graph gBad = .ok () ∧
    bagGet nBadStart.data "approval_type" = .vstr "bogus" ∧
    save_workflow_graph emptyWfDb Option.none gBad user0 Option.none 99
      = .error (.py .valueError) ∧
    (save_workflow_graph emptyWfDb Option.none gOdd user0 Option.none 99).map
      (fun p => p.fst.stages.map (fun s => (s.node_id, s.node_type)))
      = .ok [("n1", NodeType.start), ("nx", NodeType.approval)] :=
  ⟨rfl, rfl, rfl, rfl⟩
